import Mathlib

/-!
# Verification of lib_shopware6_api_base against its specification

Shallow embedding of the Python sources of `lib_shopware6_api_base`
(criteria serialization, the paginated request engine, the retry loop of
`_make_request`, token/session handling, credential checks and endpoint
validation) together with theorems settling the frozen claims C1 - C10.

Machine integers of the source are Python `int`s (arbitrary precision),
embedded as `Int`; Python dictionaries are association lists preserving
insertion order (Python 3.7+ semantics); Python exceptions are embedded as
`Except`/sum results; object identity (needed for the in-place-mutation
claim) is embedded with a small explicit heap of dictionaries.
-/

namespace Shopware

/-- Python/JSON-like values as they occur in the payload documents produced
by `pydantic`'s `model_dump(mode="python")` and handled by the client.
`null` is Python `None`. -/
inductive Value where
  | null : Value
  | int (n : Int) : Value
  | str (s : String) : Value
  | bool (b : Bool) : Value
  | list (xs : List Value) : Value
  | dict (kvs : List (String × Value)) : Value

/-- Python dictionary with string keys: an insertion-ordered association list. -/
abbrev Dict := List (String × Value)

/-- Embeds Python `v in (None, [], {})` (membership by `==`): true exactly for
`None`, the empty list and the empty dict.  This is the emptiness test of
`Criteria.get_dict` and `_filter_empty`
(`lib_shopware6_api_base_criteria.py` line 226,
`lib_shopware6_api_base_helpers.py` line 12). -/
def Value.isEmptyLike : Value → Bool
  | .null => true
  | .list [] => true
  | .dict [] => true
  | _ => false

/-! ## The Criteria data model (`lib_shopware6_api_base_criteria*.py`)

Each pydantic model class becomes a constructor; `model_dump(mode="python")`
becomes the `...Dump` functions below.  Pydantic dumps declared fields in
declaration order followed by `@computed_field`s (the `"type"` / `"order"`
discriminants), which is the order used in the dump functions. -/

/-- The filter classes of `lib_shopware6_api_base_criteria_filter.py`
(`EqualsFilter`, `EqualsAnyFilter`, `ContainsFilter`, `RangeFilter`,
`NotFilter`, `MultiFilter`, `PrefixFilter`, `SuffixFilter`).
`equalsF.value` is `None | str | int | bool` in the source, embedded as a
`Value`; `rangeF.parameters` is a `dict[str, int | datetime]`. -/
inductive Filter where
  | equalsF (field : String) (value : Value) : Filter
  | equalsAnyF (field : String) (value : List String) : Filter
  | containsF (field : String) (value : String) : Filter
  | rangeF (field : String) (parameters : List (String × Value)) : Filter
  | notF (operator : String) (queries : List Filter) : Filter
  | multiF (operator : String) (queries : List Filter) : Filter
  | pfxF (field : String) (value : String) : Filter
  | sfxF (field : String) (value : String) : Filter

/-- The sorting classes of `lib_shopware6_api_base_criteria_sorting.py`. -/
inductive Sorting where
  | fieldSorting (field : String) (order : String) (naturalSorting : Option Bool) : Sorting
  | ascFieldSorting (field : String) (naturalSorting : Option Bool) : Sorting
  | descFieldSorting (field : String) (naturalSorting : Option Bool) : Sorting

/-- The aggregation classes of `lib_shopware6_api_base_criteria_aggregation.py`.
`terms` and `filterA` nest further aggregations; `filterA` holds a filter list. -/
inductive Aggregation where
  | avg (name field : String) : Aggregation
  | countA (name field : String) : Aggregation
  | maxA (name field : String) : Aggregation
  | minA (name field : String) : Aggregation
  | sumA (name field : String) : Aggregation
  | stats (name field : String) : Aggregation
  | terms (name field : String) (sort : Option Sorting) (limit : Option Int)
      (aggregation : Option Aggregation) : Aggregation
  | filterA (name : String) (filter : List Filter) (aggregation : Aggregation) : Aggregation
  | entity (name definition field : String) : Aggregation
  | dateHistogram (name field interval : String) : Aggregation

/-- `Query` of `lib_shopware6_api_base_criteria.py` (score plus a filter). -/
structure Query where
  score : Int
  query : Filter

/-- `Criteria` of `lib_shopware6_api_base_criteria.py`, fields in declaration
order (lines 198-210).  `associations` maps names to nested `Criteria`. -/
inductive Criteria where
  | mk (limit : Option Int) (page : Option Int)
      (aggregations : List Aggregation)
      (associations : List (String × Criteria))
      (filter : List Filter)
      (grouping : List String)
      (ids : List String)
      (includes : List (String × List String))
      (post_filter : List Value)
      (query : List Query)
      (sort : List Sorting)
      (term : Option String)
      (total_count_mode : Option Int) : Criteria

def Criteria.limit : Criteria → Option Int
  | .mk l _ _ _ _ _ _ _ _ _ _ _ _ => l

def Criteria.page : Criteria → Option Int
  | .mk _ p _ _ _ _ _ _ _ _ _ _ _ => p

def Criteria.associations : Criteria → List (String × Criteria)
  | .mk _ _ _ a _ _ _ _ _ _ _ _ _ => a

def Criteria.ids : Criteria → List String
  | .mk _ _ _ _ _ _ i _ _ _ _ _ _ => i

/-- `Criteria()` with all defaults (`None` / empty containers). -/
def Criteria.default : Criteria :=
  .mk none none [] [] [] [] [] [] [] [] [] none none

/-- Plain attribute assignment `criteria.ids = ids`.  The `Criteria` model
defines no `model_config`, so pydantic's `validate_assignment` keeps its
default `False`: assigning a field runs no validator and touches no other
field - it is a plain field update. -/
def Criteria.withIds : Criteria → List String → Criteria
  | .mk l p ag as f g _ inc pf q s t tc, ids => .mk l p ag as f g ids inc pf q s t tc

/-- Plain attribute assignment `criteria.limit = n` (same semantics as
`Criteria.withIds`: no validation on assignment). -/
def Criteria.withLimit : Criteria → Option Int → Criteria
  | .mk _ p ag as f g ids inc pf q s t tc, l => .mk l p ag as f g ids inc pf q s t tc

/-- The `model_validator(mode="after")` `check_limit_ids_mutual_exclusivity`
(criteria source lines 212-219), run by pydantic at construction/validation
time: error when `limit` is not `None` and `ids` is non-empty. -/
def Criteria.validate (c : Criteria) : Except String Criteria :=
  if c.limit.isSome && decide (0 < c.ids.length) then
    .error "You can use either limit or ids, but not both"
  else
    .ok c

def optIntVal : Option Int → Value
  | none => .null
  | some n => .int n

def optStrVal : Option String → Value
  | none => .null
  | some s => .str s

def optBoolVal : Option Bool → Value
  | none => .null
  | some b => .bool b

/-- `model_dump` of a sorting: declared fields first, computed `order` last
for `AscFieldSorting`/`DescFieldSorting`. -/
def sortDump : Sorting → Value
  | .fieldSorting f o ns =>
      .dict [("field", .str f), ("order", .str o), ("naturalSorting", optBoolVal ns)]
  | .ascFieldSorting f ns =>
      .dict [("field", .str f), ("naturalSorting", optBoolVal ns), ("order", .str "ASC")]
  | .descFieldSorting f ns =>
      .dict [("field", .str f), ("naturalSorting", optBoolVal ns), ("order", .str "DESC")]

mutual

/-- `model_dump` of a filter: declared fields, then the computed `type` tag. -/
def filterDump : Filter → Value
  | .equalsF f v => .dict [("field", .str f), ("value", v), ("type", .str "equals")]
  | .equalsAnyF f vs =>
      .dict [("field", .str f), ("value", .list (vs.map Value.str)), ("type", .str "equalsAny")]
  | .containsF f v => .dict [("field", .str f), ("value", .str v), ("type", .str "contains")]
  | .rangeF f ps => .dict [("field", .str f), ("parameters", .dict ps), ("type", .str "range")]
  | .notF op qs => .dict [("operator", .str op), ("queries", .list (filterListDump qs)), ("type", .str "not")]
  | .multiF op qs => .dict [("operator", .str op), ("queries", .list (filterListDump qs)), ("type", .str "multi")]
  | .pfxF f v => .dict [("field", .str f), ("value", .str v), ("type", .str "prefix")]
  | .sfxF f v => .dict [("field", .str f), ("value", .str v), ("type", .str "suffix")]

def filterListDump : List Filter → List Value
  | [] => []
  | f :: rest => filterDump f :: filterListDump rest

end

mutual

/-- `model_dump` of an aggregation (nested aggregations dumped recursively). -/
def aggDump : Aggregation → Value
  | .avg n f => .dict [("name", .str n), ("field", .str f), ("type", .str "avg")]
  | .countA n f => .dict [("name", .str n), ("field", .str f), ("type", .str "count")]
  | .maxA n f => .dict [("name", .str n), ("field", .str f), ("type", .str "max")]
  | .minA n f => .dict [("name", .str n), ("field", .str f), ("type", .str "min")]
  | .sumA n f => .dict [("name", .str n), ("field", .str f), ("type", .str "sum")]
  | .stats n f => .dict [("name", .str n), ("field", .str f), ("type", .str "stats")]
  | .terms n f s l a =>
      .dict [("name", .str n), ("field", .str f),
             ("sort", match s with | none => .null | some s' => sortDump s'),
             ("limit", optIntVal l), ("aggregation", aggOptDump a), ("type", .str "terms")]
  | .filterA n fs a =>
      .dict [("name", .str n), ("filter", .list (filterListDump fs)),
             ("aggregation", aggDump a), ("type", .str "filter")]
  | .entity n d f =>
      .dict [("name", .str n), ("definition", .str d), ("field", .str f), ("type", .str "entity")]
  | .dateHistogram n f i =>
      .dict [("name", .str n), ("field", .str f), ("interval", .str i), ("type", .str "histogram")]

def aggOptDump : Option Aggregation → Value
  | none => .null
  | some a => aggDump a

def aggListDump : List Aggregation → List Value
  | [] => []
  | a :: rest => aggDump a :: aggListDump rest

end

/-- `model_dump` of a `Query` entry (no computed field). -/
def queryDump (q : Query) : Value :=
  .dict [("score", .int q.score), ("query", filterDump q.query)]

mutual

/-- `self.model_dump(mode="python")` on a `Criteria`, as the list of top-level
entries: every field is dumped, in declaration order; nested `Criteria` in
`associations` are dumped recursively (pydantic serializes nested models to
plain dicts). -/
def criteriaDumpFields : Criteria → List (String × Value)
  | .mk limit page aggs assocs filt grp ids inc pf q srt term tcm =>
    [("limit", optIntVal limit),
     ("page", optIntVal page),
     ("aggregations", Value.list (aggListDump aggs)),
     ("associations", Value.dict (assocDump assocs)),
     ("filter", Value.list (filterListDump filt)),
     ("grouping", Value.list (grp.map Value.str)),
     ("ids", Value.list (ids.map Value.str)),
     ("includes", Value.dict (inc.map (fun kv => (kv.1, Value.list (kv.2.map Value.str))))),
     ("post_filter", Value.list pf),
     ("query", Value.list (q.map queryDump)),
     ("sort", Value.list (srt.map sortDump)),
     ("term", optStrVal term),
     ("total_count_mode", optIntVal tcm)]

def assocDump : List (String × Criteria) → List (String × Value)
  | [] => []
  | (k, c) :: rest => (k, Value.dict (criteriaDumpFields c)) :: assocDump rest

end

/-- `self.model_dump(mode="python")` on a `Criteria` as a `Value`. -/
def criteriaDump (c : Criteria) : Value :=
  .dict (criteriaDumpFields c)

/-- `Criteria.get_dict` (criteria source lines 221-226): dump the model, then
keep the top-level entries whose value is not in `(None, [], {})`.  The
comprehension `{k: v for k, v in data.items() if v not in (None, [], {})}`
walks only the top-level items of the dumped dict. -/
def Criteria.get_dict (c : Criteria) : Dict :=
  (criteriaDumpFields c).filter (fun kv => !kv.2.isEmptyLike)

mutual

/-- `_filter_empty` of `lib_shopware6_api_base_helpers.py` (lines 9-15), used
by `pprint_attrs`: dict entries are kept when the *pre-recursion* value is not
in `(None, [], {})`, then the kept value is filtered recursively; list items
are filtered recursively without removal. -/
def filterEmpty : Value → Value
  | .dict kvs => .dict (filterEmptyEntries kvs)
  | .list xs => .list (filterEmptyList xs)
  | v => v

def filterEmptyEntries : List (String × Value) → List (String × Value)
  | [] => []
  | (k, v) :: rest =>
      if v.isEmptyLike then filterEmptyEntries rest
      else (k, filterEmpty v) :: filterEmptyEntries rest

def filterEmptyList : List Value → List Value
  | [] => []
  | v :: rest => filterEmpty v :: filterEmptyList rest

end

mutual

/-- The property claimed by the spec for the wire document: no field at any
nesting level of the document has a `None`/empty-list/empty-dict value. -/
def noEmptyFields : Value → Bool
  | .dict kvs => noEmptyFieldsEntries kvs
  | .list xs => noEmptyFieldsList xs
  | _ => true

def noEmptyFieldsEntries : List (String × Value) → Bool
  | [] => true
  | (_, v) :: rest => !v.isEmptyLike && noEmptyFields v && noEmptyFieldsEntries rest

def noEmptyFieldsList : List Value → Bool
  | [] => true
  | v :: rest => noEmptyFields v && noEmptyFieldsList rest

end

/-! ## Python dict operations and a small heap of dict objects

`_request_paginated` mutates the payload dictionary in place
(`payload_dict["limit"] = ...`, `payload_dict["page"] = page`).  To express
object identity and in-place mutation (claim C10) the embedding carries an
explicit heap: addresses are `Nat`, `Heap.next` is the next fresh address. -/

/-- Python `d[k] = v`: update the existing key in place (keeping insertion
order) or append a new key at the end (Python 3.7+ dict semantics). -/
def dictSet : Dict → String → Value → Dict
  | [], k, v => [(k, v)]
  | (k', v') :: rest, k, v =>
      if k' = k then (k, v) :: rest else (k', v') :: dictSet rest k v

/-- Python `d.get(k)` with default `None`: the stored value, or `None` when
the key is absent. -/
def pyDictGet (d : Dict) (k : String) : Value :=
  match d.find? (fun kv => kv.1 = k) with
  | some kv => kv.2
  | none => .null

/-- Python slice `xs[:n]` for an `int` bound `n`: the first `n` elements for
`n ≥ 0`, and all but the last `-n` elements for negative `n`. -/
def pySliceTo (n : Int) (xs : List α) : List α :=
  if 0 ≤ n then xs.take n.toNat else xs.take (xs.length - (-n).toNat)

/-- Heap of Python dict objects: `mem` maps addresses to contents, `next` is
the next fresh address (all live objects have addresses `< next`). -/
structure Heap where
  next : Nat
  mem : Nat → Dict

def Heap.get (h : Heap) (r : Nat) : Dict := h.mem r

def Heap.set (h : Heap) (r : Nat) (d : Dict) : Heap :=
  { h with mem := fun a => if a = r then d else h.mem a }

def Heap.alloc (h : Heap) (d : Dict) : Heap × Nat :=
  ({ next := h.next + 1, mem := fun a => if a = h.next then d else h.mem a }, h.next)

/-- A heap holding a single dict object at address 0. -/
def Heap.single (d : Dict) : Heap :=
  { next := 1, mem := fun a => if a = 0 then d else [] }

/-- The `PayLoad` union of `_http_common.py`: `dict[str, Any] | Criteria |
None`.  A dict payload is an object reference (the caller owns the object);
a `Criteria` payload is an immutable pydantic model value. -/
inductive PayLoad where
  | null : PayLoad
  | dict (r : Nat) : PayLoad
  | criteria (c : Criteria) : PayLoad

/-- `get_payload_dict` of `_http_common.py` (lines 88-94): `None` becomes a
fresh empty dict (`payload = {}` allocates), a dict payload is returned
*as the same object* (`return payload`), and a `Criteria` is serialized by
`payload.get_dict()` into a freshly built dict. -/
def get_payload_dict (h : Heap) : PayLoad → Heap × Nat
  | .null => h.alloc []
  | .dict r => (h, r)
  | .criteria c => h.alloc c.get_dict

/-- `MAX_RETRY_ATTEMPTS` of `_http_common.py` line 50. -/
def MAX_RETRY_ATTEMPTS : Nat := 2

/-- The `while True` loop body of `_request_paginated`
(`lib_shopware6_admin_client.py` lines 430-451).  `server` is the behavior of
`_make_request`: the `"data"` list returned for the payload dict as sent.
The loop writes `payload_dict["page"] = page` into the heap before each
request; `trace` accumulates the payload dicts exactly as sent.  `fuel`
bounds the number of iterations (the Python loop does not terminate when the
server keeps returning records and no limit is set); `none` means the fuel
ran out before the loop ended. -/
def pagLoop (server : Dict → List Value) (totalLimit : Option Int) :
    Nat → Heap → Nat → Nat → Int → List Value → List Dict →
    Option (Heap × List Value × List Dict)
  | 0, _, _, _, _, _, _ => none
  | fuel + 1, h, r, page, recordsLeft, acc, trace =>
    let d := dictSet (h.get r) "page" (.int (page : Int))
    let h' := h.set r d
    let data := server d
    if data.isEmpty then
      some (h', acc, trace ++ [d])
    else
      let acc' := acc ++ data
      match totalLimit with
      | none => pagLoop server none fuel h' r (page + 1) recordsLeft acc' (trace ++ [d])
      | some tl =>
        let rl' := recordsLeft - data.length
        if rl' < 1 then some (h', pySliceTo tl acc', trace ++ [d])
        else pagLoop server (some tl) fuel h' r (page + 1) rl' acc' (trace ++ [d])

/-- `_request_paginated` (`lib_shopware6_admin_client.py` lines 381-451).

* `payload_dict = get_payload_dict(payload)` (a dict payload stays the same
  object);
* when the payload is a `Criteria` with non-empty `ids`, both `junk_size`
  and `payload_dict["limit"]` are set to `len(payload.ids)`;
* `total_limit = payload_dict.get("limit")`; when it is `None` the dict gets
  `limit = str(junk_size)` (a string!) and the loop is unbounded, otherwise
  the dict gets `limit = min(total_limit, junk_size)` once, before the loop;
* then the page loop runs.

A payload whose `"limit"` value is neither an int nor `None` would make
Python's `min(total_limit, junk_size)` raise `TypeError`; the embedding
returns `none` for that case (and for exhausted fuel). -/
def request_paginated (server : Dict → List Value) (h : Heap) (payload : PayLoad)
    (junkSize : Int) (fuel : Nat) : Option (Heap × List Value × List Dict) :=
  let hr := get_payload_dict h payload
  let h1 := hr.1
  let r := hr.2
  let hj : Heap × Int :=
    match payload with
    | .criteria c =>
        if c.ids.isEmpty then (h1, junkSize)
        else (h1.set r (dictSet (h1.get r) "limit" (.int (c.ids.length : Int))),
              (c.ids.length : Int))
    | _ => (h1, junkSize)
  let h2 := hj.1
  let junk := hj.2
  match pyDictGet (h2.get r) "limit" with
  | .null =>
      pagLoop server none fuel
        (h2.set r (dictSet (h2.get r) "limit" (.str (toString junk)))) r 1 0 [] []
  | .int n =>
      pagLoop server (some n) fuel
        (h2.set r (dictSet (h2.get r) "limit" (.int (min n junk)))) r 1 n [] []
  | _ => none

/-! ## The retry loop of `_make_request`
(`lib_shopware6_admin_client.py` lines 453-563)

The behavior of the underlying `self._request` calls is an oracle: the list
of outcomes of successive HTTP requests.  Token acquisition and session
creation are assumed to succeed (they run before each attempt; a fresh
session is created at the top of every loop iteration). -/

/-- Outcome of one `self._request(...)` call: a response, a
`TokenExpiredError` from authlib, or a `ShopwareAPIError` (any message - the
source has a single exception class for all API errors). -/
inductive Outcome where
  | ok (resp : Value) : Outcome
  | tokenExpired : Outcome
  | apiError (msg : String) : Outcome

/-- Errors escaping `_make_request`. -/
inductive ReqError where
  | shopwareAPIError (msg : String) : ReqError
  | tokenExpiredError : ReqError

/-- The `while True` loop of `_make_request` with `retry = MAX_RETRY_ATTEMPTS`:

* a successful `_request` sets `retry = 0` and breaks;
* `TokenExpiredError` is caught: the token is re-acquired, the session is
  rebuilt, and `_request` runs once more *inside the except handler* - a
  failure of that second call propagates uncaught (the sibling
  `except ShopwareAPIError` clause of the same `try` does not apply to it);
* any `ShopwareAPIError` decrements `retry`; when `retry` reaches 0 the
  caught exception is re-raised, otherwise the loop runs again (with a fresh
  `_get_session()`).

The result also counts the `_request` calls issued.  `none` means the oracle
ran out of outcomes. -/
def makeRequestLoop : List Outcome → Nat → Nat → Option (Except ReqError Value × Nat)
  | [], _, _ => none
  | o :: rest, retry, issued =>
    match o with
    | .ok r => some (.ok r, issued + 1)
    | .tokenExpired =>
      match rest with
      | [] => none
      | o2 :: _ =>
        match o2 with
        | .ok r => some (.ok r, issued + 2)
        | .tokenExpired => some (.error .tokenExpiredError, issued + 2)
        | .apiError e => some (.error (.shopwareAPIError e), issued + 2)
    | .apiError e =>
      let retry' := retry - 1
      if retry' = 0 then some (.error (.shopwareAPIError e), issued + 1)
      else makeRequestLoop rest retry' (issued + 1)

/-- `_make_request` against an oracle of request outcomes. -/
def make_request (outcomes : List Outcome) : Option (Except ReqError Value × Nat) :=
  makeRequestLoop outcomes MAX_RETRY_ATTEMPTS 0


/-! ## Endpoint validation and URL construction (`_http_common.py` 122-194) -/

/-- The whitespace characters stripped by Python `str.strip()` (ASCII part;
the embedding does not model the exotic Unicode space code points, which
cannot occur in endpoint strings of interest). -/
def isPyWhitespace (c : Char) : Bool :=
  c = ' ' || c = '\t' || c = '\n' || c = '\r' || c = '\x0b' || c = '\x0c'

/-- Python `s.strip()`. -/
def pyStrip (s : String) : String :=
  String.mk (((s.toList.dropWhile isPyWhitespace).reverse.dropWhile isPyWhitespace).reverse)

/-- Python `s.lstrip("/")`. -/
def lstripSlash (s : String) : String :=
  String.mk (s.toList.dropWhile (fun c => c = '/'))

/-- Python `".." in s`: two consecutive dots occur somewhere. -/
def hasDotDot : List Char → Bool
  | [] => false
  | [_] => false
  | c₁ :: c₂ :: rest => (c₁ == '.' && c₂ == '.') || hasDotDot (c₂ :: rest)

/-- One character of `_VALID_ENDPOINT_PATTERN = r"^[a-zA-Z0-9\-_./]+$"`. -/
def validEndpointChar (c : Char) : Bool :=
  ('a' ≤ c && c ≤ 'z') || ('A' ≤ c && c ≤ 'Z') || ('0' ≤ c && c ≤ '9') ||
    c = '-' || c = '_' || c = '.' || c = '/'

/-- `validate_endpoint` (`_http_common.py` lines 122-164): strip surrounding
whitespace and leading slashes, then reject the empty string, any occurrence
of `..`, and any character outside the pattern.  (After stripping, the string
cannot end in a newline, so `re.match` of `^[...]+$` holds exactly when every
character is in the class.) -/
def validate_endpoint (endpoint : String) : Except String String :=
  let e := lstripSlash (pyStrip endpoint)
  if e = "" then .error "Invalid endpoint path: endpoint cannot be empty"
  else if hasDotDot e.toList then .error "Invalid endpoint path: contains .. path traversal"
  else if e.toList.all validEndpointChar then .ok e
  else .error "Invalid endpoint path: contains invalid characters"

/-- Split a character list on `/` (Python `path.split("/")` semantics:
`n+1` segments for `n` slashes, empty segments kept). -/
def splitSlash : List Char → List (List Char)
  | [] => [[]]
  | c :: rest =>
      if c = '/' then [] :: splitSlash rest
      else
        match splitSlash rest with
        | seg :: segs => (c :: seg) :: segs
        | [] => [[c]]

/-- Re-join path segments with `/`. -/
def joinSlash : List (List Char) → List Char
  | [] => []
  | [seg] => seg
  | seg :: rest => seg ++ '/' :: joinSlash rest

/-- RFC 3986 dot-segment removal restricted to the validated endpoints
(`..` is already excluded): `.` segments are dropped, a trailing `.` segment
leaves a trailing slash.  This is what `urllib.parse.urljoin` does to the
relative part when resolving it against a base ending in `/`. -/
def removeDotSegs : List (List Char) → List (List Char)
  | [] => []
  | [seg] => if seg = ['.'] then [[]] else [seg]
  | seg :: rest => if seg = ['.'] then removeDotSegs rest else seg :: removeDotSegs rest

/-- Python `base_url.endswith("/")`. -/
def pyEndsWithSlash (s : String) : Bool :=
  match s.toList.getLast? with
  | some c => c = '/'
  | none => false

/-- `urljoin(base_url, validated_endpoint)` for a base URL ending in `/`
whose own path has no dot segments, and a validated endpoint (which has no
scheme, no leading slash and no `..`): the endpoint, with `.` segments
removed, appended to the base. -/
def urljoinRel (b v : String) : String :=
  b ++ String.mk (joinSlash (removeDotSegs (splitSlash v.toList)))

/-- `build_api_url` (`_http_common.py` lines 167-194): validate the endpoint,
make sure the base ends in a slash, join. -/
def build_api_url (base_url endpoint : String) : Except String String :=
  match validate_endpoint endpoint with
  | .error e => .error e
  | .ok v =>
      let b := if pyEndsWithSlash base_url then base_url else base_url ++ "/"
      .ok (urljoinRel b v)

def exceptOk : Except ε α → Bool
  | .ok _ => true
  | .error _ => false

/-! ## Configuration, token acquisition, sessions
(`conf_shopware6_api_base_classes.py`, `lib_shopware6_admin_client.py`) -/

/-- `GrantType` of `conf_shopware6_api_base_classes.py`. -/
inductive GrantType where
  | user_credentials : GrantType
  | resource_owner : GrantType

/-- The configuration fields of `ConfShopware6ApiBase` used by the admin
client (all string fields default to `""`). -/
structure ConfShopware6ApiBase where
  shopware_admin_api_url : String := ""
  username : String := ""
  password : String := ""
  client_id : String := ""
  client_secret : String := ""
  grant_type : GrantType := .user_credentials

/-- The two exception classes of `conf_shopware6_api_base_classes.py`
relevant to credential handling: `ShopwareAPIError` and `ConfigurationError`
are distinct, unrelated `Exception` subclasses. -/
inductive ConfError where
  | shopwareAPIError (msg : String) : ConfError
  | configurationError (msg : String) : ConfError

def ConfError.isConfigurationError : ConfError → Bool
  | .configurationError _ => true
  | _ => false

/-- The outgoing `client.fetch_token(...)` call a token acquisition would
issue (url plus grant parameters).  An `Except.error` result means the
acquisition failed *before* any token request was issued. -/
structure TokenFetch where
  base_url : String
  endpoint : String
  grantKind : String
  client_id : String

/-- `_get_access_token_by_resource_owner` (`lib_shopware6_admin_client.py`
lines 707-778): empty `shopware_admin_api_url`, `client_id` or
`client_secret` (Python falsy strings) raise `ShopwareAPIError` before the
`OAuth2Client` is built and before `fetch_token` is called. -/
def get_access_token_by_resource_owner (config : ConfShopware6ApiBase) :
    Except ConfError TokenFetch :=
  if config.shopware_admin_api_url = "" then
    .error (.shopwareAPIError "shopware_api_url needed")
  else if config.client_id = "" then
    .error (.shopwareAPIError "client_id needed")
  else if config.client_secret = "" then
    .error (.shopwareAPIError "client_secret needed")
  else
    .ok { base_url := config.shopware_admin_api_url, endpoint := "oauth/token",
          grantKind := "client_credentials", client_id := config.client_id }

/-- `_get_access_token_by_user_credentials` (`lib_shopware6_admin_client.py`
lines 780-850): empty `shopware_admin_api_url`, `username` or `password`
raise `ShopwareAPIError` before `fetch_token` is called. -/
def get_access_token_by_user_credentials (config : ConfShopware6ApiBase) :
    Except ConfError TokenFetch :=
  if config.shopware_admin_api_url = "" then
    .error (.shopwareAPIError "shopware_api_url needed")
  else if config.username = "" then
    .error (.shopwareAPIError "username needed")
  else if config.password = "" then
    .error (.shopwareAPIError "password needed")
  else
    .ok { base_url := config.shopware_admin_api_url, endpoint := "oauth/token",
          grantKind := "password", client_id := "administration" }

/-- `_is_refreshable_token` (`lib_shopware6_admin_client.py` lines 919-925):
`"refresh_token" in self.token` - pure key membership in the stored token
dict, independent of everything else. -/
def is_refreshable_token (token : Dict) : Bool :=
  (token.find? (fun kv => kv.1 = "refresh_token")).isSome

/-- The session object built by `_get_session`: either an `OAuth2Client`
wired with `token_endpoint` and the `update_token` callback (the only
configuration under which authlib ever performs a refresh call), or a plain
`OAuth2Client` without any refresh machinery. -/
inductive SessionSpec where
  | refreshWired (client_id : String) (token : Dict) (token_endpoint : String) : SessionSpec
  | plain (client_id : String) (token : Dict) : SessionSpec

def SessionSpec.usesRefreshWiring : SessionSpec → Bool
  | .refreshWired _ _ _ => true
  | .plain _ _ => false

/-- `_get_session` (`lib_shopware6_admin_client.py` lines 852-893).
`acquired` stands for the token `_get_token()` would fetch when no token is
stored yet.  When the (possibly just fetched) token is refreshable the
session is an `OAuth2Client` with `token_endpoint` and `update_token`
(refresh machinery wired); otherwise it is a plain `OAuth2Client` with the
configured `client_id` and no refresh machinery.  (The `expires_in`
recomputation from the wall clock is not modelled; it does not influence
which branch is taken.) -/
def get_session (config : ConfShopware6ApiBase) (token acquired : Dict) : SessionSpec :=
  let tok := if token.isEmpty then acquired else token
  if is_refreshable_token tok then
    .refreshWired "administration" tok (urljoinRel (config.shopware_admin_api_url ++ "/") "oauth/token")
  else
    .plain config.client_id tok

/-- Which acquisition the `except TokenExpiredError` handler of
`_make_request` performs (lines 525-534): with a refreshable token it calls
`_get_access_token_by_user_credentials`, otherwise
`_get_access_token_by_resource_owner` - both are full re-acquisitions, never
refresh calls. -/
inductive AcquireAction where
  | by_user_credentials : AcquireAction
  | by_resource_owner : AcquireAction

def expired_token_action (token : Dict) : AcquireAction :=
  if is_refreshable_token token then .by_user_credentials else .by_resource_owner


/-! ## Servers used in concrete scenarios -/

/-- Upstream behavior for the `limit=4, junk_size=3` scenario: page 1 has
three records, page 2 has three (more than the single remaining record),
later pages are empty. -/
def serverC3 (d : Dict) : List Value :=
  match pyDictGet d "page" with
  | .int 1 => [.str "r1", .str "r2", .str "r3"]
  | .int 2 => [.str "r4", .str "r5", .str "r6"]
  | _ => []

/-- Upstream behavior returning successive pages of sizes 3, 3, 2, 0. -/
def serverC7 (d : Dict) : List Value :=
  match pyDictGet d "page" with
  | .int 1 => [.str "s1", .str "s2", .str "s3"]
  | .int 2 => [.str "s4", .str "s5", .str "s6"]
  | .int 3 => [.str "s7", .str "s8"]
  | _ => []

/-! ## Helper lemmas on heaps, dicts and the page loop -/

theorem Heap.get_set_self (h : Heap) (r : Nat) (d : Dict) : (h.set r d).get r = d := by
  simp [Heap.get, Heap.set]

theorem Heap.get_set_ne (h : Heap) (r a : Nat) (d : Dict) (hne : a ≠ r) :
    (h.set r d).get a = h.get a := by
  simp [Heap.get, Heap.set, hne]

theorem pyDictGet_dictSet_self (d : Dict) (k : String) (v : Value) :
    pyDictGet (dictSet d k v) k = v := by
  induction d with
  | nil => simp [dictSet, pyDictGet]
  | cons kv rest ih =>
    obtain ⟨k', v'⟩ := kv
    by_cases hk : k' = k
    · simp [dictSet, hk, pyDictGet]
    · simpa [dictSet, hk, pyDictGet] using ih

theorem pyDictGet_dictSet_ne (d : Dict) (k k' : String) (v : Value) (hne : k' ≠ k) :
    pyDictGet (dictSet d k v) k' = pyDictGet d k' := by
  have hne' : k ≠ k' := Ne.symm hne
  induction d with
  | nil => simp [dictSet, pyDictGet, hne']
  | cons kv rest ih =>
    obtain ⟨k₀, v₀⟩ := kv
    by_cases hk : k₀ = k
    · subst hk
      simp [dictSet, pyDictGet, hne, hne']
    · by_cases hk2 : k₀ = k'
      · subst hk2
        simp [dictSet, pyDictGet, hk, hne, hne']
      · simpa [dictSet, pyDictGet, hk, hk2] using ih

theorem pagLoop_frame (server : Dict → List Value) (tl : Option Int) :
    ∀ (fuel : Nat) (h : Heap) (r page : Nat) (rl : Int) (acc : List Value) (tr : List Dict)
      (out : Heap × List Value × List Dict),
      pagLoop server tl fuel h r page rl acc tr = some out →
      ∀ a, a ≠ r → out.1.get a = h.get a := by
  intro fuel
  induction fuel with
  | zero => intro h r page rl acc tr out hstep; simp [pagLoop] at hstep
  | succ n ih =>
    intro h r page rl acc tr out hstep a ha
    simp only [pagLoop] at hstep
    split at hstep
    · cases hstep; exact Heap.get_set_ne _ _ _ _ ha
    · split at hstep
      · exact (ih _ _ _ _ _ _ _ hstep a ha).trans (Heap.get_set_ne _ _ _ _ ha)
      · split at hstep
        · cases hstep; exact Heap.get_set_ne _ _ _ _ ha
        · exact (ih _ _ _ _ _ _ _ hstep a ha).trans (Heap.get_set_ne _ _ _ _ ha)

theorem pagLoop_limit_final (server : Dict → List Value) (tl : Option Int) :
    ∀ (fuel : Nat) (h : Heap) (r page : Nat) (rl : Int) (acc : List Value) (tr : List Dict)
      (out : Heap × List Value × List Dict),
      pagLoop server tl fuel h r page rl acc tr = some out →
      pyDictGet (out.1.get r) "limit" = pyDictGet (h.get r) "limit" := by
  intro fuel
  induction fuel with
  | zero => intro h r page rl acc tr out hstep; simp [pagLoop] at hstep
  | succ n ih =>
    intro h r page rl acc tr out hstep
    have hkeep : pyDictGet (dictSet (h.get r) "page" (.int (page : Int))) "limit"
        = pyDictGet (h.get r) "limit" :=
      pyDictGet_dictSet_ne _ _ _ _ (by decide)
    simp only [pagLoop] at hstep
    split at hstep
    · cases hstep
      rw [Heap.get_set_self]
      exact hkeep
    · split at hstep
      · rw [ih _ _ _ _ _ _ _ hstep, Heap.get_set_self]
        exact hkeep
      · split at hstep
        · cases hstep
          rw [Heap.get_set_self]
          exact hkeep
        · rw [ih _ _ _ _ _ _ _ hstep, Heap.get_set_self]
          exact hkeep

theorem pagLoop_page_final (server : Dict → List Value) (tl : Option Int) :
    ∀ (fuel : Nat) (h : Heap) (r page : Nat) (rl : Int) (acc : List Value) (tr : List Dict)
      (out : Heap × List Value × List Dict),
      pagLoop server tl fuel h r page rl acc tr = some out →
      ∃ p : Int, pyDictGet (out.1.get r) "page" = Value.int p := by
  intro fuel
  induction fuel with
  | zero => intro h r page rl acc tr out hstep; simp [pagLoop] at hstep
  | succ n ih =>
    intro h r page rl acc tr out hstep
    simp only [pagLoop] at hstep
    split at hstep
    · cases hstep
      exact ⟨(page : Int), by rw [Heap.get_set_self]; exact pyDictGet_dictSet_self _ _ _⟩
    · split at hstep
      · exact ih _ _ _ _ _ _ _ hstep
      · split at hstep
        · cases hstep
          exact ⟨(page : Int), by rw [Heap.get_set_self]; exact pyDictGet_dictSet_self _ _ _⟩
        · exact ih _ _ _ _ _ _ _ hstep

theorem pagLoop_trace_prefix (server : Dict → List Value) (tl : Option Int) :
    ∀ (fuel : Nat) (h : Heap) (r page : Nat) (rl : Int) (acc : List Value) (tr : List Dict)
      (out : Heap × List Value × List Dict),
      pagLoop server tl fuel h r page rl acc tr = some out →
      ∃ tail, out.2.2 = tr ++ tail := by
  intro fuel
  induction fuel with
  | zero => intro h r page rl acc tr out hstep; simp [pagLoop] at hstep
  | succ n ih =>
    intro h r page rl acc tr out hstep
    simp only [pagLoop] at hstep
    split at hstep
    · cases hstep; exact ⟨_, rfl⟩
    · split at hstep
      · obtain ⟨tail, htail⟩ := ih _ _ _ _ _ _ _ hstep
        exact ⟨_, by simpa using htail⟩
      · split at hstep
        · cases hstep; exact ⟨_, rfl⟩
        · obtain ⟨tail, htail⟩ := ih _ _ _ _ _ _ _ hstep
          exact ⟨_, by simpa using htail⟩

theorem pagLoop_trace_head (server : Dict → List Value) (tl : Option Int)
    (fuel : Nat) (h : Heap) (r page : Nat) (rl : Int) (acc : List Value)
    (out : Heap × List Value × List Dict)
    (hstep : pagLoop server tl (fuel + 1) h r page rl acc [] = some out) :
    ∃ tail, out.2.2 = dictSet (h.get r) "page" (.int (page : Int)) :: tail := by
  simp only [pagLoop] at hstep
  split at hstep
  · cases hstep; exact ⟨[], rfl⟩
  · split at hstep
    · obtain ⟨tail, htail⟩ := pagLoop_trace_prefix server _ _ _ _ _ _ _ _ _ hstep
      exact ⟨tail, by simpa using htail⟩
    · split at hstep
      · cases hstep; exact ⟨[], rfl⟩
      · obtain ⟨tail, htail⟩ := pagLoop_trace_prefix server _ _ _ _ _ _ _ _ _ hstep
        exact ⟨tail, by simpa using htail⟩

theorem pagLoop_trace_limit (server : Dict → List Value) (tl : Option Int) (v : Value) :
    ∀ (fuel : Nat) (h : Heap) (r page : Nat) (rl : Int) (acc : List Value) (tr : List Dict)
      (out : Heap × List Value × List Dict),
      pyDictGet (h.get r) "limit" = v →
      (∀ d ∈ tr, pyDictGet d "limit" = v) →
      pagLoop server tl fuel h r page rl acc tr = some out →
      ∀ d ∈ out.2.2, pyDictGet d "limit" = v := by
  intro fuel
  induction fuel with
  | zero => intro h r page rl acc tr out _ _ hstep; simp [pagLoop] at hstep
  | succ n ih =>
    intro h r page rl acc tr out hv htr hstep
    have hd : pyDictGet (dictSet (h.get r) "page" (.int (page : Int))) "limit" = v := by
      rw [pyDictGet_dictSet_ne _ _ _ _ (by decide)]; exact hv
    have htr' : ∀ d ∈ tr ++ [dictSet (h.get r) "page" (.int (page : Int))],
        pyDictGet d "limit" = v := by
      intro d hmem
      rcases List.mem_append.mp hmem with hmem | hmem
      · exact htr d hmem
      · rcases List.mem_singleton.mp hmem with rfl
        exact hd
    have hv' : pyDictGet ((h.set r (dictSet (h.get r) "page" (.int (page : Int)))).get r)
        "limit" = v := by rw [Heap.get_set_self]; exact hd
    simp only [pagLoop] at hstep
    split at hstep
    · cases hstep; exact htr'
    · split at hstep
      · exact ih _ _ _ _ _ _ _ hv' htr' hstep
      · split at hstep
        · cases hstep; exact htr'
        · exact ih _ _ _ _ _ _ _ hv' htr' hstep

/-! ## Claim C1: recursive emptiness filtering in `Criteria.get_dict` -/

/-- A criteria with one association whose nested criteria is empty. -/
def criteriaWithEmptyAssociation : Criteria :=
  Criteria.mk none none [] [("products", Criteria.default)] [] [] [] [] [] [] [] none none

/-- C1 (counterexample): the claim states that `Criteria.get_dict` omits
every `None`/empty field *at every nesting level* of the produced document.
For `Criteria(associations={"products": Criteria()})` the produced document
keeps the nested association dict with *all* of its `None` and empty fields
(`limit: None`, `aggregations: []`, ...): the comprehension in `get_dict`
filters only the top level.  The document therefore contains empty-valued
fields at nesting depth 2, refuting the claim. -/
theorem C1_counterexample :
    Criteria.get_dict criteriaWithEmptyAssociation =
      [("associations", .dict [("products", .dict (criteriaDumpFields Criteria.default))])]
    ∧ pyDictGet (criteriaDumpFields Criteria.default) "limit" = Value.null
    ∧ noEmptyFields (Value.dict (Criteria.get_dict criteriaWithEmptyAssociation)) = false :=
  ⟨rfl, rfl, rfl⟩

/-- C1 (amended): `Criteria.get_dict` dumps the model recursively and then
omits exactly the *top-level* fields whose already-serialized value is
`None`, an empty list or an empty dict; values nested below the top level
(inside associations, aggregations and filters) are kept exactly as
`model_dump` produced them, including their empty/`None` fields.  A
top-level entry survives iff it occurs in the dump and is non-empty. -/
theorem C1_get_dict_filters_top_level_only :
    ∀ (c : Criteria) (k : String) (v : Value),
      (k, v) ∈ c.get_dict ↔ ((k, v) ∈ criteriaDumpFields c ∧ v.isEmptyLike = false) := by
  intro c k v
  simp [Criteria.get_dict, List.mem_filter]

/-! ## Claim C2: the retry policy of `_make_request` -/

/-- C2 (counterexample): the claim states that an `APIError` which is not the
"unverifiable token" rejection propagates to the caller unchanged and is
never retried.  The source catches *every* `ShopwareAPIError` alike: after a
404-style error the request is retried once, and when the retry succeeds the
response is returned - the error neither propagates nor is left unretried
(2 requests are issued). -/
theorem C2_counterexample :
    make_request [.apiError "404 Client Error: Not Found", .ok (.str "response")] =
      some (.ok (.str "response"), 2) := rfl

/-- C2 (amended): `_make_request` retries **any** `ShopwareAPIError` exactly
once with a fresh session - the trigger is the exception class alone, with no
inspection of the message; the budget is `MAX_RETRY_ATTEMPTS = 2` attempts in
total (one extra attempt beyond the first); when the second attempt also
fails, that second error propagates to the caller unchanged. -/
theorem C2_any_api_error_retried_once :
    ∀ (e₁ e₂ : String) (rest restOk : List Outcome) (r : Value),
      MAX_RETRY_ATTEMPTS = 2
      ∧ make_request (.apiError e₁ :: .apiError e₂ :: rest) =
          some (.error (.shopwareAPIError e₂), 2)
      ∧ make_request (.apiError e₁ :: .ok r :: restOk) = some (.ok r, 2) := by
  intro e₁ e₂ rest restOk r
  exact ⟨rfl, rfl, rfl⟩

/-! ## Claim C5: when the limit/ids exclusivity is enforced -/

/-- C5 (counterexample): the claim states that a mutation making `ids`
non-empty while `limit` is set fails with an error.  `Criteria` has no
`validate_assignment` configuration, so the assignment `criteria.ids = ["a"]`
on a criteria constructed with `limit=5` succeeds silently and leaves an
object with both `limit` and `ids` set - no error is raised at mutation
time (construction with both, by contrast, is rejected). -/
theorem C5_counterexample :
    Criteria.validate (Criteria.default.withLimit (some 5)) =
      .ok (Criteria.default.withLimit (some 5))
    ∧ ((Criteria.default.withLimit (some 5)).withIds ["a"]).limit = some 5
    ∧ ((Criteria.default.withLimit (some 5)).withIds ["a"]).ids = ["a"] :=
  ⟨rfl, rfl, rfl⟩

/-- C5 (amended): the limit/ids mutual-exclusivity invariant is enforced by
the pydantic `model_validator` at construction/validation time only: any
criteria with `limit` set and non-empty `ids` fails validation; but plain
attribute assignment performs no check - it updates exactly the assigned
field and always succeeds, so a violating criteria is reachable by
mutation. -/
theorem C5_invariant_validation_time_only :
    ∀ (c : Criteria),
      (c.limit.isSome = true → c.ids ≠ [] →
        ∃ m, Criteria.validate c = .error m)
      ∧ (∀ ids, (c.withIds ids).limit = c.limit ∧ (c.withIds ids).ids = ids)
      ∧ (∀ l, (c.withLimit l).limit = l ∧ (c.withLimit l).ids = c.ids) := by
  intro c
  refine ⟨fun hl hids => ?_, fun ids => ?_, fun l => ?_⟩
  · refine ⟨"You can use either limit or ids, but not both", ?_⟩
    have hlen : 0 < c.ids.length := List.length_pos.mpr hids
    simp [Criteria.validate, hl, hlen]
  · cases c; exact ⟨rfl, rfl⟩
  · cases c; exact ⟨rfl, rfl⟩

/-- C5 (witness). -/
theorem C5_invariant_validation_time_only_witness :
    (Criteria.default.withLimit (some 5)).limit.isSome = true
    ∧ (Criteria.default.withLimit (some 5)).withIds ["a"] ≠ Criteria.default
    ∧ (∃ m, Criteria.validate ((Criteria.default.withLimit (some 5)).withIds ["a"]) = .error m) :=
  ⟨rfl, by intro h; exact absurd (congrArg Criteria.limit h) (by simp [Criteria.withIds, Criteria.withLimit, Criteria.default, Criteria.limit]),
   (C5_invariant_validation_time_only ((Criteria.default.withLimit (some 5)).withIds ["a"])).1
     rfl (List.cons_ne_nil _ _)⟩

/-! ## Claim C7: pagination without a caller limit -/

/-- C7: with no limit set (`payload = None`) and `junk_size = 3`, against an
upstream returning pages of sizes 3, 3, 2, 0, the paginator issues exactly 4
requests carrying page numbers 1, 2, 3, 4 in this order, terminates on the
zero-record page, and assembles exactly 8 records.  (The page number is
written by the loop itself - the caller passed no payload at all.) -/
theorem C7_pagination_scenario :
    (request_paginated serverC7 (Heap.single []) .null 3 10).map
        (fun out => (out.2.1, out.2.2.map (fun d => pyDictGet d "page"))) =
      some ([.str "s1", .str "s2", .str "s3", .str "s4", .str "s5", .str "s6",
             .str "s7", .str "s8"],
            [Value.int 1, Value.int 2, Value.int 3, Value.int 4]) := rfl

/-! ## Claim C9: error class for missing credentials -/

def exceptErrIsConfigurationError : Except ConfError α → Bool
  | .error e => e.isConfigurationError
  | .ok _ => false

/-- Configuration whose admin API url is missing. -/
def confMissingUrl : ConfShopware6ApiBase :=
  { shopware_admin_api_url := "", username := "admin", password := "secret",
    client_id := "my_id", client_secret := "my_secret", grant_type := .resource_owner }

/-- C9 (counterexample): the claim states that a missing credential fails
with a configuration-class error (`ConfigurationError`).  With an empty admin
API url, `_get_access_token_by_resource_owner` raises
`ShopwareAPIError("shopware_api_url needed")` - the same class as the
API/authentication errors, not `ConfigurationError` (which the source
reserves for missing `.env` configuration files). -/
theorem C9_counterexample :
    get_access_token_by_resource_owner confMissingUrl =
      .error (.shopwareAPIError "shopware_api_url needed")
    ∧ exceptErrIsConfigurationError (get_access_token_by_resource_owner confMissingUrl) = false :=
  ⟨rfl, rfl⟩

/-- C9 (amended): whenever a required credential (admin API url, client id,
client secret for the resource-owner flow; admin API url, username, password
for the user-credentials flow) is empty, token acquisition fails immediately
with a `ShopwareAPIError` (not `ConfigurationError`), before any token
request is issued - the error result carries no `TokenFetch`, i.e. no
outgoing request was built. -/
theorem C9_missing_credentials_fail_before_request :
    ∀ (config : ConfShopware6ApiBase),
      ((config.shopware_admin_api_url = "" ∨ config.client_id = "" ∨
          config.client_secret = "") →
        ∃ m, get_access_token_by_resource_owner config = .error (.shopwareAPIError m))
      ∧ ((config.shopware_admin_api_url = "" ∨ config.username = "" ∨
          config.password = "") →
        ∃ m, get_access_token_by_user_credentials config = .error (.shopwareAPIError m)) := by
  intro config
  constructor
  · intro h
    unfold get_access_token_by_resource_owner
    split
    · exact ⟨_, rfl⟩
    · split
      · exact ⟨_, rfl⟩
      · split
        · exact ⟨_, rfl⟩
        · rcases h with h | h | h <;> contradiction
  · intro h
    unfold get_access_token_by_user_credentials
    split
    · exact ⟨_, rfl⟩
    · split
      · exact ⟨_, rfl⟩
      · split
        · exact ⟨_, rfl⟩
        · rcases h with h | h | h <;> contradiction

/-- C9 (witness). -/
theorem C9_missing_credentials_fail_before_request_witness :
    (∃ m, get_access_token_by_resource_owner confMissingUrl = .error (.shopwareAPIError m))
    ∧ (∃ m, get_access_token_by_user_credentials confMissingUrl = .error (.shopwareAPIError m)) :=
  ⟨(C9_missing_credentials_fail_before_request confMissingUrl).1 (Or.inl rfl),
   (C9_missing_credentials_fail_before_request confMissingUrl).2 (Or.inl rfl)⟩

/-! ## Claim C6: refreshability is structural -/

/-- C6: refreshability of the stored token record is decided solely by the
structural test "does the token dict contain a `refresh_token` key":
(i) `_get_session` wires the refresh machinery (`token_endpoint` +
`update_token` callback) exactly when that key is present, (ii) the branch
taken is independent of the configured grant strategy (any two
configurations agree), and (iii) a token without a refresh token yields a
plain session with no refresh machinery, and on token expiry the
`_make_request` handler performs the full re-acquisition
`_get_access_token_by_resource_owner` - never a refresh call. -/
theorem C6_refreshability_is_structural :
    ∀ (config config₂ : ConfShopware6ApiBase) (token acquired : Dict),
      token ≠ [] →
      ((get_session config token acquired).usesRefreshWiring = is_refreshable_token token
       ∧ (get_session config token acquired).usesRefreshWiring
           = (get_session config₂ token acquired).usesRefreshWiring
       ∧ (is_refreshable_token token = false →
            get_session config token acquired = .plain config.client_id token
            ∧ expired_token_action token = .by_resource_owner)) := by
  intro config config₂ token acquired hne
  have hemp : token.isEmpty = false := by
    cases token with
    | nil => exact absurd rfl hne
    | cons a l => rfl
  cases hr : is_refreshable_token token
  · refine ⟨?_, ?_, fun _ => ⟨?_, ?_⟩⟩
    · simp [get_session, hemp, hr, SessionSpec.usesRefreshWiring]
    · simp [get_session, hemp, hr, SessionSpec.usesRefreshWiring]
    · simp [get_session, hemp, hr]
    · simp [expired_token_action, hr]
  · refine ⟨?_, ?_, fun hfalse => absurd hfalse (by decide)⟩
    · simp [get_session, hemp, hr, SessionSpec.usesRefreshWiring]
    · simp [get_session, hemp, hr, SessionSpec.usesRefreshWiring]

/-- C6 (witness): a token record holding only an access token. -/
theorem C6_refreshability_is_structural_witness :
    is_refreshable_token [("access_token", Value.str "t")] = false
    ∧ (get_session {} [("access_token", Value.str "t")] []).usesRefreshWiring
        = is_refreshable_token [("access_token", Value.str "t")]
    ∧ expired_token_action [("access_token", Value.str "t")] = .by_resource_owner :=
  ⟨rfl,
   (C6_refreshability_is_structural {} {} [("access_token", Value.str "t")] []
      (List.cons_ne_nil _ _)).1,
   ((C6_refreshability_is_structural {} {} [("access_token", Value.str "t")] []
      (List.cons_ne_nil _ _)).2.2 rfl).2⟩

/-! ## Claim C8: endpoint validation -/

theorem hasDotDot_iff (l : List Char) :
    hasDotDot l = true ↔ ∃ l₁ l₂, l = l₁ ++ '.' :: '.' :: l₂ := by
  induction l with
  | nil =>
    simp only [hasDotDot]
    constructor
    · intro h; exact absurd h (by simp)
    · rintro ⟨l₁, l₂, h⟩
      exact absurd (congrArg List.length h) (by simp; omega)
  | cons c rest ih =>
    cases rest with
    | nil =>
      simp only [hasDotDot]
      constructor
      · intro h; exact absurd h (by simp)
      · rintro ⟨l₁, l₂, h⟩
        have := congrArg List.length h
        simp [List.length_append] at this
        omega
    | cons c₂ r₂ =>
      have hdef : hasDotDot (c :: c₂ :: r₂) = ((c == '.' && c₂ == '.') || hasDotDot (c₂ :: r₂)) := rfl
      rw [hdef]
      constructor
      · intro h
        rw [Bool.or_eq_true, Bool.and_eq_true] at h
        rcases h with ⟨h1, h2⟩ | h
        · refine ⟨[], r₂, ?_⟩
          rw [eq_of_beq h1, eq_of_beq h2]
          rfl
        · obtain ⟨l₁, l₂, hl⟩ := ih.mp h
          exact ⟨c :: l₁, l₂, by simp [hl]⟩
      · rintro ⟨l₁, l₂, hl⟩
        cases l₁ with
        | nil =>
          simp only [List.nil_append, List.cons.injEq] at hl
          obtain ⟨rfl, rfl, rfl⟩ := hl
          simp
        | cons x l₁' =>
          simp only [List.cons_append, List.cons.injEq] at hl
          rw [Bool.or_eq_true]
          right
          exact ih.mpr ⟨l₁', l₂, hl.2⟩

/-- C8: URL construction errors exactly when the endpoint - after stripping
surrounding whitespace and leading slashes - is empty, contains the
substring `..`, or contains a character outside `[A-Za-z0-9\-_./]`;
otherwise the validated endpoint is joined onto the base URL.  In
particular `product/../../etc` and `prod uct` are rejected, while
`search/product` is accepted and formats to `{base}/search/product`. -/
theorem C8_endpoint_validation :
    (∀ (base_url endpoint : String),
      (∃ u, build_api_url base_url endpoint = .ok u) ↔
        (lstripSlash (pyStrip endpoint) ≠ ""
         ∧ ¬(∃ l₁ l₂, (lstripSlash (pyStrip endpoint)).toList = l₁ ++ '.' :: '.' :: l₂)
         ∧ ∀ ch ∈ (lstripSlash (pyStrip endpoint)).toList, validEndpointChar ch = true))
    ∧ build_api_url "https://shop.example.com/api" "search/product"
        = .ok "https://shop.example.com/api/search/product"
    ∧ exceptOk (build_api_url "https://shop.example.com/api" "product/../../etc") = false
    ∧ exceptOk (build_api_url "https://shop.example.com/api" "prod uct") = false := by
  refine ⟨?_, rfl, rfl, rfl⟩
  intro base_url endpoint
  simp only [build_api_url, validate_endpoint, String.toList]
  by_cases h1 : lstripSlash (pyStrip endpoint) = ""
  · simp [h1]
  · rw [if_neg h1]
    by_cases h2 : hasDotDot (lstripSlash (pyStrip endpoint)).data = true
    · have h2' := (hasDotDot_iff _).mp h2
      rw [if_pos h2]
      exact iff_of_false (by simp) (fun hR => absurd h2' hR.2.1)
    · rw [if_neg h2]
      by_cases h3 : (lstripSlash (pyStrip endpoint)).data.all validEndpointChar = true
      · rw [if_pos h3]
        have hnodots : ¬∃ l₁ l₂,
            (lstripSlash (pyStrip endpoint)).data = l₁ ++ '.' :: '.' :: l₂ := by
          intro hex
          exact absurd ((hasDotDot_iff _).mpr hex) h2
        exact iff_of_true ⟨_, rfl⟩ ⟨h1, hnodots, List.all_eq_true.mp h3⟩
      · rw [if_neg h3]
        exact iff_of_false (by simp)
          (fun hR => absurd (List.all_eq_true.mpr hR.2.2) h3)

/-! ## Claim C3: per-page limit for a finite caller limit -/

/-- C3 (counterexample): the claim states that each iteration requests
`limit = min(remaining, junk_size)`, so with `limit=4, junk_size=3` the
second page would be requested with `limit=1`.  In the source the payload's
`"limit"` is written once, before the loop (`payload_dict["limit"] =
min(total_limit, junk_size)`), and the loop never updates it: both issued
requests carry `limit=3`, not `limit=1` on the second. -/
theorem C3_counterexample :
    (request_paginated serverC3 (Heap.single [("limit", Value.int 4)]) (.dict 0) 3 10).map
        (fun out => out.2.2.map (fun d => pyDictGet d "limit")) =
      some [Value.int 3, Value.int 3]
    ∧ Value.int 3 ≠ Value.int 1 :=
  ⟨rfl, by simp⟩

/-- C3 (amended): for a dict payload carrying a finite limit `L`, the
paginator fixes the per-request `limit` to `min(L, junk_size)` *once before
the loop*; every issued request carries that same limit (never
`min(remaining, junk_size)`).  In the `L=4, junk_size=3` scenario both pages
are requested with `limit=3`; the loop still stops once `remaining` drops
below 1 and truncates the result to exactly 4 records. -/
theorem C3_limit_fixed_before_loop :
    (∀ (server : Dict → List Value) (h : Heap) (r : Nat) (L junk : Int) (fuel : Nat)
       (tr : List Dict),
       pyDictGet (h.get r) "limit" = Value.int L →
       (request_paginated server h (.dict r) junk fuel).map (fun out => out.2.2) = some tr →
       ∀ d ∈ tr, pyDictGet d "limit" = Value.int (min L junk))
    ∧ (request_paginated serverC3 (Heap.single [("limit", Value.int 4)]) (.dict 0) 3 10).map
        (fun out => (out.2.1, out.2.2.map (fun d => (pyDictGet d "limit", pyDictGet d "page")))) =
      some ([.str "r1", .str "r2", .str "r3", .str "r4"],
            [(Value.int 3, Value.int 1), (Value.int 3, Value.int 2)]) := by
  constructor
  · intro server h r L junk fuel tr hL hmap
    cases hrun : request_paginated server h (.dict r) junk fuel with
    | none => rw [hrun] at hmap; cases hmap
    | some out =>
      rw [hrun] at hmap
      simp only [Option.map_some', Option.some.injEq] at hmap
      simp only [request_paginated, get_payload_dict] at hrun
      rw [hL] at hrun
      have h0 : pyDictGet ((h.set r (dictSet (h.get r) "limit" (Value.int (min L junk)))).get r)
          "limit" = Value.int (min L junk) := by
        rw [Heap.get_set_self]; exact pyDictGet_dictSet_self _ _ _
      have hall := pagLoop_trace_limit server (some L) (Value.int (min L junk)) fuel _ r 1 L
        [] [] out h0 (by intro d hd; cases hd) hrun
      intro d hd
      exact hall d (by rw [hmap]; exact hd)
  · rfl

/-- C3 (witness). -/
theorem C3_limit_fixed_before_loop_witness :
    pyDictGet ((Heap.single [("limit", Value.int 4)]).get 0) "limit" = Value.int 4
    ∧ pyDictGet [("limit", Value.int 3), ("page", Value.int 1)] "limit" = Value.int (min 4 3) :=
  ⟨rfl,
   C3_limit_fixed_before_loop.1 serverC3 (Heap.single [("limit", Value.int 4)]) 0 4 3 10
     [[("limit", Value.int 3), ("page", Value.int 1)],
      [("limit", Value.int 3), ("page", Value.int 2)]] rfl rfl
     [("limit", Value.int 3), ("page", Value.int 1)] (List.mem_cons_self _ _)⟩

/-! ## Claim C4: what setting `ids` does -/

/-- C4 (counterexample): the claim states that setting `ids` to a non-empty
list on a criteria with unset `limit` leaves the criteria with
`limit = len(ids)` and `page = 1`.  The source has no such mutator: the
assignment `criteria.ids = [...]` updates only `ids`, and the criteria
afterwards still has `limit = None` and `page = None` (the source's own
doctest shows the dumped criteria without a limit).  The `len(ids)` limit
exists only in the payload dict of the paginated request. -/
theorem C4_counterexample :
    (Criteria.default.withIds ["a", "b", "c"]).limit = none
    ∧ (Criteria.default.withIds ["a", "b", "c"]).page = none
    ∧ ¬((Criteria.default.withIds ["a", "b", "c"]).limit = some 3
        ∧ (Criteria.default.withIds ["a", "b", "c"]).page = some 1) :=
  ⟨rfl, rfl, fun hcl => Option.noConfusion hcl.1⟩

/-- C4 (amended): assigning `ids` leaves the criteria's `limit` and `page`
unchanged (in particular `None` stays `None`); it is the *paginated request*
(`_request_paginated`) that derives the wire values from a criteria with
non-empty `ids`: the first issued payload carries `limit = len(ids)` and
`page = 1` (a single page sized to the id count). -/
theorem C4_paginator_derives_limit_from_ids :
    (∀ (c : Criteria) (ids : List String),
       (c.withIds ids).limit = c.limit ∧ (c.withIds ids).page = c.page)
    ∧ (∀ (c : Criteria) (server : Dict → List Value) (h : Heap) (junk : Int) (fuel : Nat)
         (tr : List Dict),
       c.ids ≠ [] →
       (request_paginated server h (.criteria c) junk fuel).map (fun out => out.2.2) = some tr →
       ∃ d₁ tail, tr = d₁ :: tail ∧ pyDictGet d₁ "limit" = Value.int c.ids.length
         ∧ pyDictGet d₁ "page" = Value.int 1) := by
  constructor
  · intro c ids; cases c; exact ⟨rfl, rfl⟩
  · intro c server h junk fuel tr hids hmap
    cases hrun : request_paginated server h (.criteria c) junk fuel with
    | none => rw [hrun] at hmap; cases hmap
    | some out =>
      rw [hrun] at hmap
      simp only [Option.map_some', Option.some.injEq] at hmap
      have hidsb : c.ids.isEmpty = false := by
        cases hc : c.ids with
        | nil => exact absurd hc hids
        | cons a l => rfl
      simp only [request_paginated, get_payload_dict, hidsb, Bool.false_eq_true, if_false]
        at hrun
      have hscrut : pyDictGet
          (((h.alloc c.get_dict).1.set (h.alloc c.get_dict).2
            (dictSet ((h.alloc c.get_dict).1.get (h.alloc c.get_dict).2) "limit"
              (Value.int (c.ids.length : Int)))).get (h.alloc c.get_dict).2) "limit"
          = Value.int (c.ids.length : Int) := by
        rw [Heap.get_set_self]; exact pyDictGet_dictSet_self _ _ _
      rw [hscrut] at hrun
      simp only [min_self] at hrun
      cases fuel with
      | zero => simp [pagLoop] at hrun
      | succ n =>
        obtain ⟨tail, htail⟩ := pagLoop_trace_head server _ _ _ _ _ _ _ _ hrun
        refine ⟨_, tail, by rw [← hmap, htail], ?_, ?_⟩
        · rw [pyDictGet_dictSet_ne _ _ _ _ (by decide), Heap.get_set_self]
          exact pyDictGet_dictSet_self _ _ _
        · exact pyDictGet_dictSet_self _ _ _

/-- C4 (witness): three ids give a single first page with `limit=3`,
`page=1`. -/
theorem C4_paginator_derives_limit_from_ids_witness :
    (Criteria.default.withIds ["a", "b", "c"]).ids ≠ []
    ∧ ∃ d₁ tail,
        ([[("ids", Value.list [.str "a", .str "b", .str "c"]),
           ("limit", Value.int 3), ("page", Value.int 1)]] : List Dict) = d₁ :: tail
        ∧ pyDictGet d₁ "limit" = Value.int (Criteria.default.withIds ["a", "b", "c"]).ids.length
        ∧ pyDictGet d₁ "page" = Value.int 1 :=
  ⟨List.cons_ne_nil _ _,
   C4_paginator_derives_limit_from_ids.2 (Criteria.default.withIds ["a", "b", "c"])
     serverC3 (Heap.single []) 100 10
     [[("ids", Value.list [.str "a", .str "b", .str "c"]),
       ("limit", Value.int 3), ("page", Value.int 1)]]
     (List.cons_ne_nil _ _) rfl⟩

/-! ## Claim C10: in-place mutation of a dict payload -/

/-- C10: in `_request_paginated`,
(i) `get_payload_dict` returns a dict payload *as the same object* (same
heap address, unchanged heap);
(ii) a `Criteria` payload is copied into a freshly allocated dict holding
`criteria.get_dict` (a fresh address, `heap.next`);
(iii) for a dict payload, after the call the caller's own object carries a
`"page"` key written by the loop, and its `"limit"` key has been overwritten
with `min(limit, junk_size)` - the mutations are visible at the caller's
address after the call returns;
(iv) for a `Criteria` payload every previously allocated object is left
untouched (and the `Criteria` value itself, being outside the dict heap, is
never written at all). -/
theorem C10_dict_payload_mutated_in_place :
    (∀ (h : Heap) (r : Nat), get_payload_dict h (.dict r) = (h, r))
    ∧ (∀ (h : Heap) (c : Criteria),
         (get_payload_dict h (.criteria c)).2 = h.next
         ∧ (get_payload_dict h (.criteria c)).1.get h.next = c.get_dict)
    ∧ (∀ (server : Dict → List Value) (junk : Int) (fuel : Nat) (h : Heap) (r : Nat),
         (request_paginated server h (.dict r) junk fuel).isSome = true →
         (∃ p : Int, (request_paginated server h (.dict r) junk fuel).map
             (fun out => pyDictGet (out.1.get r) "page") = some (Value.int p))
         ∧ (∀ L : Int, pyDictGet (h.get r) "limit" = Value.int L →
             (request_paginated server h (.dict r) junk fuel).map
               (fun out => pyDictGet (out.1.get r) "limit") = some (Value.int (min L junk))))
    ∧ (∀ (server : Dict → List Value) (junk : Int) (fuel : Nat) (h : Heap) (c : Criteria),
         (request_paginated server h (.criteria c) junk fuel).isSome = true →
         ∀ a, a < h.next →
           (request_paginated server h (.criteria c) junk fuel).map (fun out => out.1.get a)
             = some (h.get a)) := by
  refine ⟨fun h r => rfl, fun h c => ⟨rfl, by simp [get_payload_dict, Heap.alloc, Heap.get]⟩,
    ?_, ?_⟩
  · intro server junk fuel h r hsome
    cases hrun0 : request_paginated server h (.dict r) junk fuel with
    | none => rw [hrun0] at hsome; cases hsome
    | some out =>
      constructor
      · have hrun := hrun0
        simp only [request_paginated, get_payload_dict] at hrun
        split at hrun
        · obtain ⟨p, hp⟩ := pagLoop_page_final server none fuel _ r 1 0 [] [] out hrun
          exact ⟨p, by simp only [Option.map_some', hp]⟩
        · obtain ⟨p, hp⟩ := pagLoop_page_final server (some _) fuel _ r 1 _ [] [] out hrun
          exact ⟨p, by simp only [Option.map_some', hp]⟩
        · exact Option.noConfusion hrun
      · intro L hL
        have hrun := hrun0
        simp only [request_paginated, get_payload_dict] at hrun
        simp only [hL] at hrun
        have hfin := pagLoop_limit_final server (some L) fuel _ r 1 L [] [] out hrun
        rw [Heap.get_set_self, pyDictGet_dictSet_self] at hfin
        simp only [Option.map_some', hfin]
  · intro server junk fuel h c hsome a ha
    have hne : a ≠ h.next := Nat.ne_of_lt ha
    cases hrun0 : request_paginated server h (.criteria c) junk fuel with
    | none => rw [hrun0] at hsome; cases hsome
    | some out =>
      simp only [Option.map_some', Option.some.injEq]
      have hrun := hrun0
      simp only [request_paginated, get_payload_dict, Heap.alloc] at hrun
      cases hids : c.ids.isEmpty <;>
        simp only [hids, Bool.false_eq_true, if_false, if_true] at hrun <;>
        split at hrun
      · have hfr := pagLoop_frame server none fuel _ h.next 1 0 [] [] out hrun a hne
        rw [hfr]; simp [Heap.get, Heap.set, hne]
      · have hfr := pagLoop_frame server (some _) fuel _ h.next 1 _ [] [] out hrun a hne
        rw [hfr]; simp [Heap.get, Heap.set, hne]
      · exact Option.noConfusion hrun
      · have hfr := pagLoop_frame server none fuel _ h.next 1 0 [] [] out hrun a hne
        rw [hfr]; simp [Heap.get, Heap.set, hne]
      · have hfr := pagLoop_frame server (some _) fuel _ h.next 1 _ [] [] out hrun a hne
        rw [hfr]; simp [Heap.get, Heap.set, hne]
      · exact Option.noConfusion hrun

/-- C10 (witness): the caller's dict at address 0 visibly holds the written
`"page"` key and the overwritten `"limit"` after the call; a criteria run
leaves the pre-existing object at address 0 unchanged. -/
theorem C10_dict_payload_mutated_in_place_witness :
    (∃ p : Int, (request_paginated serverC3 (Heap.single [("limit", Value.int 4)])
        (.dict 0) 3 10).map (fun out => pyDictGet (out.1.get 0) "page")
        = some (Value.int p))
    ∧ (request_paginated serverC3 (Heap.single [("limit", Value.int 4)]) (.dict 0) 3 10).map
        (fun out => pyDictGet (out.1.get 0) "limit") = some (Value.int (min 4 3))
    ∧ (request_paginated serverC3 (Heap.single []) (.criteria (Criteria.default.withIds
        ["a", "b", "c"])) 100 10).map (fun out => out.1.get 0)
        = some ((Heap.single []).get 0) :=
  ⟨(C10_dict_payload_mutated_in_place.2.2.1 serverC3 3 10
      (Heap.single [("limit", Value.int 4)]) 0 rfl).1,
   (C10_dict_payload_mutated_in_place.2.2.1 serverC3 3 10
      (Heap.single [("limit", Value.int 4)]) 0 rfl).2 4 rfl,
   C10_dict_payload_mutated_in_place.2.2.2 serverC3 100 10 (Heap.single [])
     (Criteria.default.withIds ["a", "b", "c"]) rfl 0 (by decide)⟩

end Shopware
